import Mathlib

/-!
Verification development for the non-transitive dice game of `game.py`.

The program is embedded shallowly: every pure computation of the source is
translated into an executable Lean definition, stateful console interaction
is modelled by explicit input lists and event traces, and the two
cryptographic primitives taken from the Python standard library
(`secrets.token_bytes` / `secrets.randbelow` and HMAC-SHA3-256 from
`hmac`/`hashlib`) are modelled by explicit parameters: the drawn value and
the fresh key become arguments of the protocol round, and the HMAC core
becomes a function argument `hmacSha3 : List Nat → List Nat → List Nat`
(key bytes and message bytes to digest bytes).  Nothing proved below
depends on which concrete function that parameter is.
-/

namespace DiceGame

/-! ## Python string primitives

`game.py` leans on `str.strip`, `str.lower`, `str.split`, `str.isdigit`,
`int(...)` and `str(...)`; these are modelled here for the ASCII inputs the
game manipulates. -/

/-- The whitespace characters `str.strip` removes (ASCII). -/
def isPySpace (c : Char) : Bool :=
  c = ' ' || c = '\t' || c = '\n' || c = '\x0d' || c = '\x0b' || c = '\x0c'

/-- Python `s.strip()`. -/
def pyStrip (s : String) : String :=
  ⟨((s.data.dropWhile isPySpace).reverse.dropWhile isPySpace).reverse⟩

/-- Python `s.strip().lower()` as applied to menu input. -/
def pyStripLower (s : String) : String :=
  ⟨(pyStrip s).data.map Char.toLower⟩

/-- Python `str.isdigit` on the ASCII strings the game produces:
nonempty and all decimal digits. -/
def pyIsDigit (s : String) : Bool :=
  !s.data.isEmpty && s.data.all Char.isDigit

/-- Worker for `natDigits`, structurally recursive on a fuel argument so
that the kernel can evaluate it; each division by ten strictly shrinks the
number, so fuel `n + 1` never runs out (the `0` case is unreachable). -/
def natDigitsCore : Nat → Nat → List Char
  | 0, _ => []
  | fuel + 1, n =>
    if n < 10 then [Char.ofNat (48 + n)]
    else natDigitsCore fuel (n / 10) ++ [Char.ofNat (48 + n % 10)]

/-- The decimal digits of a natural number, most significant first
(the characters of Python `str(n)` for `n ≥ 0`). -/
def natDigits (n : Nat) : List Char :=
  natDigitsCore (n + 1) n

/-- Python `str(n)` for a natural number. -/
def pyStrNat (n : Nat) : String :=
  ⟨natDigits n⟩

/-- Python `str(n)` for an integer. -/
def pyStrInt (n : Int) : String :=
  if n < 0 then "-" ++ pyStrNat n.natAbs else pyStrNat n.toNat

/-- The value of a list of decimal digit characters, most significant first. -/
def digitsVal (cs : List Char) : Nat :=
  cs.foldl (fun a c => 10 * a + (c.toNat - 48)) 0

/-- Digit run of Python `int`: after the first digit, digits possibly
separated by single underscores (`1_000`); a trailing, doubled or
misplaced underscore fails. -/
def pyIntGo (acc : Nat) : List Char → Option Nat
  | [] => some acc
  | c :: rest =>
    if c.isDigit then pyIntGo (10 * acc + (c.toNat - 48)) rest
    else if c = '_' then
      match rest with
      | [] => none
      | c2 :: rest2 =>
        if c2.isDigit then pyIntGo (10 * acc + (c2.toNat - 48)) rest2 else none
    else none

/-- A nonempty digit run (with Python's underscore grouping) and its value. -/
def pyDigits? : List Char → Option Nat
  | [] => none
  | c :: rest => if c.isDigit then pyIntGo (c.toNat - 48) rest else none

/-- Python `int(s)`: surrounding whitespace stripped, an optional sign,
then a nonempty digit run; `none` models the `ValueError`. -/
def pyInt? (s : String) : Option Int :=
  match (pyStrip s).data with
  | '+' :: rest => (pyDigits? rest).map (fun n => (n : Int))
  | '-' :: rest => (pyDigits? rest).map (fun n => -(n : Int))
  | rest => (pyDigits? rest).map (fun n => (n : Int))

/-- Python `s.split(',')` over the character list: cut at every comma,
keeping empty pieces (so `"".split(',') == ['']`). -/
def splitCommaCore : List Char → List Char → List (List Char)
  | [], acc => [acc.reverse]
  | c :: rest, acc =>
    if c = ',' then acc.reverse :: splitCommaCore rest []
    else splitCommaCore rest (c :: acc)

/-- `arg_string.split(',')` with empty strings dropped, exactly as in
`DiceParser.parse`: `[int(f) for f in arg_string.split(',') if f]`. -/
def pyTokens (s : String) : List String :=
  ((splitCommaCore s.data []).map (fun cs => (⟨cs⟩ : String))).filter (fun t => t ≠ "")

/-! ## Data model -/

/-- `Die`: a list of integer face values (`game.py` section 2).  The
constructor-time check `if not faces: raise ValueError` lives in the
parser model below, where the Python exception is caught. -/
structure Die where
  faces : List Int
deriving DecidableEq

instance : Inhabited Die := ⟨⟨[]⟩⟩

/-- The three predefined `ValidationError` instances of `game.py`. -/
inductive ValidationError
  | notEnoughDice
  | inconsistentFaces
  | nonIntegerValue
deriving DecidableEq

/-- Decidable equality for `Except` results (for evaluating the parser on
concrete argument lists). -/
instance instDecEqExcept {ε α : Type} [DecidableEq ε] [DecidableEq α] :
    DecidableEq (Except ε α) := fun x y =>
  match x, y with
  | .error a, .error b =>
    if h : a = b then .isTrue (by rw [h]) else .isFalse (by simp [h])
  | .error _, .ok _ => .isFalse (by simp)
  | .ok _, .error _ => .isFalse (by simp)
  | .ok a, .ok b =>
    if h : a = b then .isTrue (by rw [h]) else .isFalse (by simp [h])

/-! ## DiceParser (`game.py` section 3) -/

namespace DiceParser

/-- The comprehension `[int(f) for f in arg_string.split(',') if f]`:
convert the tokens in order, failing at the first `ValueError`. -/
def parseFaces : List String → Option (List Int)
  | [] => some []
  | t :: ts =>
    match pyInt? t with
    | none => none
    | some v =>
      match parseFaces ts with
      | none => none
      | some vs => some (v :: vs)

/-- One iteration of the parsing loop: split the argument on commas,
convert every nonempty token with `int` and build the `Die`.  A failing
`int(f)` and the `ValueError` raised by `Die.__init__` on an empty face
list are both caught by the surrounding `except ValueError`, which
re-raises `NON_INTEGER_VALUE`. -/
def parseDie (arg_string : String) : Except ValidationError Die :=
  match parseFaces (pyTokens arg_string) with
  | none => .error .nonIntegerValue
  | some faces =>
    if faces = [] then .error .nonIntegerValue else .ok ⟨faces⟩

/-- The `for arg_string in args` loop: build the dice in order, stopping
at the first error. -/
def parseDice : List String → Except ValidationError (List Die)
  | [] => .ok []
  | a :: rest =>
    match parseDie a with
    | .error e => .error e
    | .ok d =>
      match parseDice rest with
      | .error e => .error e
      | .ok ds => .ok (d :: ds)

/-- `DiceParser.parse`: fewer than three arguments raise
`NOT_ENOUGH_DICE`; the conversion loop raises `NON_INTEGER_VALUE` at its
first failure; finally every die must have as many faces as the first. -/
def parse (args : List String) : Except ValidationError (List Die) :=
  if args.length < 3 then .error .notEnoughDice
  else
    match parseDice args with
    | .error e => .error e
    | .ok dice_list =>
      let first_die_faces := (dice_list.map (fun d => d.faces.length)).headD 0
      if dice_list.all (fun d => d.faces.length == first_die_faces) then .ok dice_list
      else .error .inconsistentFaces

/-- The behaviour claimed for `DiceParser.parse`, amended: success needs at
least three arguments, every argument at least one nonempty comma-separated
token, every such token convertible by `int`, and equal face counts; the
checks apply in that order (too-few-arguments first, then the conversion
loop, then the face-count comparison). -/
def parse_described (args : List String) : Except ValidationError (List Die) :=
  if args.length < 3 then .error .notEnoughDice
  else if args.any (fun a =>
      (pyTokens a).isEmpty || (pyTokens a).any (fun t => (pyInt? t).isNone)) then
    .error .nonIntegerValue
  else
    let dice_list := args.map (fun a => Die.mk ((pyTokens a).filterMap pyInt?))
    let first_die_faces := (dice_list.map (fun d => d.faces.length)).headD 0
    if dice_list.all (fun d => d.faces.length == first_die_faces) then .ok dice_list
    else .error .inconsistentFaces

end DiceParser

/-! ## CryptoProvider (`game.py` section 4)

`generate_key` and `generate_secure_random` draw entropy; their outputs
appear below as explicit parameters (`key`, `computer_move`).  The
HMAC-SHA3-256 core is the function parameter `hmacSha3`. -/

namespace CryptoProvider

/-- `str(message_int).encode('utf-8')`: the UTF-8 bytes of the decimal
string (all ASCII). -/
def strEncode (message_int : Int) : List Nat :=
  (pyStrInt message_int).data.map Char.toNat

/-- An uppercase hexadecimal digit. -/
def hexDigitChar (d : Nat) : Char :=
  if d < 10 then Char.ofNat (48 + d) else Char.ofNat (55 + d)

/-- One byte as two uppercase hexadecimal characters. -/
def hexUpperByte (b : Nat) : List Char :=
  [hexDigitChar (b / 16 % 16), hexDigitChar (b % 16)]

/-- `h.hexdigest().upper()`. -/
def hexUpper (bytes : List Nat) : String :=
  ⟨(bytes.map hexUpperByte).flatten⟩

/-- `CryptoProvider.calculate_hmac`: HMAC over the byte serialisation of
`message_int`, keyed by `key`, rendered as an uppercase hex string.  The
HMAC-SHA3-256 core from `hmac`/`hashlib` is the parameter `hmacSha3`. -/
def calculate_hmac (hmacSha3 : List Nat → List Nat → List Nat)
    (key : List Nat) (message_int : Int) : String :=
  hexUpper (hmacSha3 key (strEncode message_int))

/-- The commitment actually built inside `FairRandomGenerator.generate`:
a key together with `calculate_hmac key value`. -/
def commit (hmacSha3 : List Nat → List Nat → List Nat)
    (key : List Nat) (value : Int) : List Nat × String :=
  (key, calculate_hmac hmacSha3 key value)

/-- Modelled from the spec: `game.py` exposes no `verify` function (its
`CryptoProvider` has only `generate_key`, `generate_secure_random` and
`calculate_hmac`); the spec's `CommitmentScheme.verify(key, value, digest)`
"recomputes the digest from key and value and compares for equality". -/
def verify (hmacSha3 : List Nat → List Nat → List Nat)
    (key : List Nat) (value : Int) (digest : String) : Bool :=
  calculate_hmac hmacSha3 key value == digest

end CryptoProvider

/-! ## ProbabilityCalculator (`game.py` section 5) -/

namespace ProbabilityCalculator

/-- The nested loop of `calculate_win_probability`: the number of face
pairs with `face1 > face2`. -/
def count_wins (die1 die2 : Die) : Nat :=
  (die1.faces.map (fun face1 => die2.faces.countP (fun face2 => decide (face1 > face2)))).sum

/-- The analogous count of face pairs with equal values (used to state the
tie fraction of the spec's algebraic property; `game.py` has no tie
counter of its own). -/
def count_ties (die1 die2 : Die) : Nat :=
  (die1.faces.map (fun face1 => die2.faces.countP (fun face2 => decide (face1 = face2)))).sum

/-- `ProbabilityCalculator.calculate_win_probability`, with Python's float
division modelled exactly over the rationals: `wins / total_outcomes`,
and `0.0` when `total_outcomes == 0`. -/
def calculate_win_probability (die1 die2 : Die) : Rat :=
  let total_outcomes := die1.faces.length * die2.faces.length
  if total_outcomes = 0 then 0
  else (count_wins die1 die2 : Rat) / (total_outcomes : Rat)

/-- The "fraction of face pairs with equal values": the P(tie) named by the
spec's algebraic property. -/
def tie_fraction (die1 die2 : Die) : Rat :=
  (count_ties die1 die2 : Rat) / ((die1.faces.length * die2.faces.length : Nat) : Rat)

end ProbabilityCalculator

/-! ## HelpTableGenerator (`game.py` section 6)

`generate_table` only formats: each cell holds
`calculate_win_probability(user_die, pc_die)`, the diagonal branch
(`user_die is pc_die`) merely wrapping the same number in asterisks.  The
numeric content of the table is modelled here; the ASCII layout done by the
external `tabulate` library is display only. -/

namespace HelpTableGenerator

/-- The probability put in one cell of the table: the source's
`if user_die is pc_die` branch and its `else` branch each call
`calculate_win_probability(user_die, pc_die)`; the flag only changes the
string decoration. -/
def cellProb (user_die pc_die : Die) (sameDie : Bool) : Rat :=
  if sameDie then ProbabilityCalculator.calculate_win_probability user_die pc_die
  else ProbabilityCalculator.calculate_win_probability user_die pc_die

/-- The matrix of probabilities underlying the help table, rows indexed by
the user's die and columns by the computer's; the `is`-identity test of the
source becomes position equality in the die list. -/
def generate_table_probs (all_dice : List Die) : List (List Rat) :=
  (List.range all_dice.length).map (fun i =>
    (List.range all_dice.length).map (fun j =>
      cellProb (all_dice.getD i default) (all_dice.getD j default) (i == j)))

end HelpTableGenerator

/-! ## Console interaction (`game.py` sections 7-9)

The console is modelled by an explicit list of pending input lines and a
trace of observable events.  `input()` consumes the head of the list; an
exhausted list models the `EOFError` that `main` catches.  `sys.exit(0)`
on the choice `'0'` becomes the `exited` outcome.  The block of `print`
calls that draws one menu is summarised by a single `menuShown` event. -/

/-- One observable step of the program. -/
inductive Event
  | genRandom (max_val : Nat) (value : Nat)
  | genKey (key : List Nat)
  | message (text : String)
  | hmacShown (digest : String)
  | menuShown (prompt : String) (options : List String) (allow_help : Bool)
  | inputRead (raw : String)
  | keyAndMoveShown (key : List Nat) (move : Nat)
  | helpShown (probs : List (List Rat))
deriving DecidableEq

/-- Events a menu interaction (`GameUI.get_user_choice`) may emit. -/
def Event.isUIEvent : Event → Bool
  | .menuShown _ _ _ => true
  | .inputRead _ => true
  | .message _ => true
  | _ => false

/-- Whether an event is the generation of a fresh key. -/
def Event.isGenKey : Event → Bool
  | .genKey _ => true
  | _ => false

/-- Whether an event is the drawing of the computer's secure random value. -/
def Event.isGenRandom : Event → Bool
  | .genRandom _ _ => true
  | _ => false

/-- How one call of `GameUI.get_user_choice` ends. -/
inductive UIOutcome
  | returned (choice : String) (rest : List String)
  | exited
  | eof
deriving DecidableEq

namespace GameUI

/-- Message printed on an out-of-range numeric choice. -/
def invalidChoiceMsg : String := "Invalid choice. Please enter a number from the list."

/-- Message printed when `int(choice)` raises `ValueError`. -/
def invalidInputMsg : String := "Invalid input. Please enter a number, '?' or '0'."

/-- Message printed before `sys.exit(0)`. -/
def exitMsg : String := "Exiting game. Goodbye!"

/-- `GameUI.get_user_choice`: loop over the pending inputs; `'0'` exits the
session, `'?'` is returned only when `allow_help` is set, a number between
`1` and `len(options)` is returned as the string of its zero-based index,
and anything else prints a complaint and re-prompts. -/
def get_user_choice (prompt : String) (options : List String) (allow_help : Bool) :
    List String → UIOutcome × List Event
  | [] => (.eof, [.menuShown prompt options allow_help])
  | raw :: rest =>
    let menu := Event.menuShown prompt options allow_help
    let choice := pyStripLower raw
    if choice = "0" then
      (.exited, [menu, .inputRead raw, .message exitMsg])
    else if choice == "?" && allow_help then
      (.returned "?" rest, [menu, .inputRead raw])
    else
      match pyInt? choice with
      | some choice_int =>
        if 1 ≤ choice_int ∧ choice_int ≤ (options.length : Int) then
          (.returned (pyStrNat (choice_int - 1).toNat) rest, [menu, .inputRead raw])
        else
          ((get_user_choice prompt options allow_help rest).1,
            menu :: .inputRead raw :: .message invalidChoiceMsg ::
              (get_user_choice prompt options allow_help rest).2)
      | none =>
        ((get_user_choice prompt options allow_help rest).1,
          menu :: .inputRead raw :: .message invalidInputMsg ::
            (get_user_choice prompt options allow_help rest).2)

end GameUI

/-- Every return of `get_user_choice` consumed at least one input line
(needed to define the surrounding retry loops by recursion on the pending
input). -/
theorem get_user_choice_rest_length {prompt options allow_help}
    {s : String} {rest : List String} :
    ∀ (inputs : List String),
      (GameUI.get_user_choice prompt options allow_help inputs).1 = .returned s rest →
      rest.length < inputs.length
  | [], h => by simp [GameUI.get_user_choice] at h
  | raw :: tail, h => by
    simp only [GameUI.get_user_choice] at h
    split at h
    · simp at h
    · split at h
      · simp at h
        cases h.2
        simp
      · split at h
        · split at h
          · simp at h
            cases h.2
            simp
          · dsimp only at h
            have := get_user_choice_rest_length tail h
            simp only [List.length_cons]
            omega
        · dsimp only at h
          have := get_user_choice_rest_length tail h
          simp only [List.length_cons]
          omega

/-- How the solicitation loop inside `FairRandomGenerator.generate` ends. -/
inductive SolicitOutcome
  | got (user_move : Nat) (rest : List String)
  | exited
  | eof
deriving DecidableEq

namespace FairRandomGenerator

/-- Worker for `solicit`, structurally recursive on fuel.  Every pass of
the loop consumes at least one pending input line, so with fuel
`inputs.length + 1` the `0` case is unreachable; it answers `eof`, the
same outcome an exhausted input list produces. -/
def solicitCore (prompt : String) (options : List String) :
    Nat → List String → SolicitOutcome × List Event
  | 0, _ => (.eof, [])
  | fuel + 1, inputs =>
    match GameUI.get_user_choice prompt options false inputs with
    | (.returned user_move_str rest, tr) =>
      if pyIsDigit user_move_str then
        (.got ((pyInt? user_move_str).getD 0).toNat rest, tr)
      else
        let r := solicitCore prompt options fuel rest
        (r.1, tr ++ r.2)
    | (.exited, tr) => (.exited, tr)
    | (.eof, tr) => (.eof, tr)

/-- The `while True` loop of `FairRandomGenerator.generate`: ask
`get_user_choice` (help disabled) until the returned string `isdigit()`,
then convert it with `int`. -/
def solicit (prompt : String) (options : List String) (inputs : List String) :
    SolicitOutcome × List Event :=
  solicitCore prompt options (inputs.length + 1) inputs

/-- How one full round of `FairRandomGenerator.generate` ends. -/
inductive GenOutcome
  | result (value : Nat) (rest : List String)
  | exited
  | eof
deriving DecidableEq

/-- `FairRandomGenerator.generate`.  The entropy drawn inside the call is
made explicit: `computer_move` stands for
`self.crypto.generate_secure_random(max_val)` and `key` for the fresh
`self.crypto.generate_key()`; both are recorded in the trace where the
source draws them.  The call then shows the HMAC, solicits the human's
number, combines the two values modulo `max_val` and reveals key and
move. -/
def generate (hmacSha3 : List Nat → List Nat → List Nat)
    (computer_move : Nat) (key : List Nat) (max_val : Nat)
    (prompt : String) (inputs : List String) : GenOutcome × List Event :=
  let digest := CryptoProvider.calculate_hmac hmacSha3 key (computer_move : Int)
  let introEvents : List Event :=
    [.genRandom max_val computer_move, .genKey key,
     .message ("I have made my choice in range [0.." ++ pyStrInt ((max_val : Int) - 1) ++ "]."),
     .hmacShown digest]
  let options := (List.range max_val).map (fun i => pyStrNat i)
  match solicit prompt options inputs with
  | (.got user_move rest, tr) =>
    (.result ((computer_move + user_move) % max_val) rest,
      introEvents ++ tr ++
        [.keyAndMoveShown key computer_move,
         .message ("Result: (" ++ pyStrNat computer_move ++ " + " ++ pyStrNat user_move
           ++ ") mod " ++ pyStrNat max_val ++ " = "
           ++ pyStrNat ((computer_move + user_move) % max_val))])
  | (.exited, tr) => (.exited, introEvents ++ tr)
  | (.eof, tr) => (.eof, introEvents ++ tr)

end FairRandomGenerator

/-! ## GameController (`game.py` section 9) -/

namespace GameController

/-- `user_goes_first = (first_move_result == 0)` in `_play_round`. -/
def user_goes_first (first_move_result : Nat) : Bool :=
  first_move_result == 0

/-- Step 1 of `_play_round`: the toss, a fair round with range 2. -/
def first_move_toss (hmacSha3 : List Nat → List Nat → List Nat)
    (computer_move : Nat) (key : List Nat) (inputs : List String) :
    FairRandomGenerator.GenOutcome × List Event :=
  FairRandomGenerator.generate hmacSha3 computer_move key 2
    "Enter 0 or 1. If you match my secret bit, you go first:" inputs

/-- `str(die)`: the faces joined by commas. -/
def dieStr (d : Die) : String :=
  String.intercalate "," (d.faces.map pyStrInt)

/-- How `_get_player_die_choice` ends.  `indexError` models an
out-of-bounds `available_dice[int(choice_str)]`. -/
inductive DieChoiceOutcome
  | chose (die : Die) (rest : List String)
  | exited
  | eof
  | indexError
deriving DecidableEq

/-- Worker for `get_player_die_choice`, structurally recursive on fuel;
every pass consumes at least one input line, so fuel `inputs.length + 1`
never runs out (the `0` case answers `eof`, as an exhausted input list
does). -/
def getPlayerDieChoiceCore (all_dice available_dice : List Die) :
    Nat → List String → DieChoiceOutcome × List Event
  | 0, _ => (.eof, [])
  | fuel + 1, inputs =>
    match GameUI.get_user_choice "Choose your die from the list:"
        (available_dice.map dieStr) true inputs with
    | (.returned choice_str rest, tr) =>
      if choice_str = "?" then
        let r := getPlayerDieChoiceCore all_dice available_dice fuel rest
        (r.1, tr ++ Event.helpShown (HelpTableGenerator.generate_table_probs all_dice) :: r.2)
      else
        match available_dice[((pyInt? choice_str).getD 0).toNat]? with
        | some d => (.chose d rest, tr)
        | none => (.indexError, tr)
    | (.exited, tr) => (.exited, tr)
    | (.eof, tr) => (.eof, tr)

/-- `GameController._get_player_die_choice`: show the menu of remaining
dice with help enabled; on `'?'` display the probability table and ask
again; otherwise index the remaining dice with the chosen number. -/
def get_player_die_choice (all_dice available_dice : List Die) (inputs : List String) :
    DieChoiceOutcome × List Event :=
  getPlayerDieChoiceCore all_dice available_dice (inputs.length + 1) inputs

/-- How `_select_dice` ends. -/
inductive SelectOutcome
  | selected (player_die computer_die : Die) (rest : List String)
  | exited
  | eof
  | indexError
deriving DecidableEq

/-- `GameController._select_dice`.  `secrets.choice(available_dice)` is
made explicit as the index `pc_pick` into the remaining dice;
`available_dice.remove(...)` removes the first occurrence of the chosen
die. -/
def select_dice (all_dice : List Die) (pc_pick : Nat) (u_first : Bool)
    (inputs : List String) : SelectOutcome × List Event :=
  if u_first then
    match get_player_die_choice all_dice all_dice inputs with
    | (.chose player_die rest, tr) =>
      let remaining := all_dice.erase player_die
      match remaining[pc_pick]? with
      | some computer_die =>
        (.selected player_die computer_die rest,
          Event.message "\nYou get to choose first." :: tr
            ++ [.message "I've chosen my die from the rest."])
      | none => (.indexError, Event.message "\nYou get to choose first." :: tr)
    | (.exited, tr) => (.exited, Event.message "\nYou get to choose first." :: tr)
    | (.eof, tr) => (.eof, Event.message "\nYou get to choose first." :: tr)
    | (.indexError, tr) => (.indexError, Event.message "\nYou get to choose first." :: tr)
  else
    match all_dice[pc_pick]? with
    | some computer_die =>
      let remaining := all_dice.erase computer_die
      match get_player_die_choice all_dice remaining inputs with
      | (.chose player_die rest, tr) =>
        (.selected player_die computer_die rest,
          Event.message "\nI get to choose first." :: .message "I have chosen my die." :: tr)
      | (.exited, tr) =>
        (.exited, Event.message "\nI get to choose first." :: .message "I have chosen my die." :: tr)
      | (.eof, tr) =>
        (.eof, Event.message "\nI get to choose first." :: .message "I have chosen my die." :: tr)
      | (.indexError, tr) =>
        (.indexError, Event.message "\nI get to choose first." :: .message "I have chosen my die." :: tr)
    | none => (.indexError, [Event.message "\nI get to choose first."])

/-- How the roll phase of `_play_round` ends; `indexError` models an
out-of-bounds `faces[...]` access. -/
inductive RollOutcome
  | rolled (computer_roll_index : Nat) (computer_roll_value : Int)
      (player_roll_index : Nat) (player_roll_value : Int) (rest : List String)
  | exited
  | eof
  | indexError
deriving DecidableEq

/-- Step 3 of `_play_round`: two fair rounds with range
`num_faces = len(player_die)`, each result indexing the corresponding
die's face list.  `c1, k1` and `c2, k2` are the entropy drawn by the two
`generate` calls. -/
def roll_phase (hmacSha3 : List Nat → List Nat → List Nat)
    (c1 : Nat) (k1 : List Nat) (c2 : Nat) (k2 : List Nat)
    (player_die computer_die : Die) (inputs : List String) :
    RollOutcome × List Event :=
  let num_faces := player_die.faces.length
  let upper := num_faces - 1
  match FairRandomGenerator.generate hmacSha3 c1 k1 num_faces
      ("Enter your number (0-" ++ pyStrNat upper ++ ") for my roll:") inputs with
  | (.result computer_roll_index rest, tr1) =>
    match computer_die.faces[computer_roll_index]? with
    | none => (.indexError, tr1)
    | some computer_roll_value =>
      match FairRandomGenerator.generate hmacSha3 c2 k2 num_faces
          ("Enter your number (0-" ++ pyStrNat upper ++ ") for your roll:") rest with
      | (.result player_roll_index rest2, tr2) =>
        match player_die.faces[player_roll_index]? with
        | none => (.indexError, tr1 ++ tr2)
        | some player_roll_value =>
          (.rolled computer_roll_index computer_roll_value
            player_roll_index player_roll_value rest2, tr1 ++ tr2)
      | (.exited, tr2) => (.exited, tr1 ++ tr2)
      | (.eof, tr2) => (.eof, tr1 ++ tr2)
  | (.exited, tr1) => (.exited, tr1)
  | (.eof, tr1) => (.eof, tr1)

end GameController

/-! ## Lemmas on the string primitives -/

/-- Every character produced by `natDigitsCore` is a decimal digit. -/
theorem natDigitsCore_mem :
    ∀ (fuel n : Nat), n < fuel →
      ∀ c ∈ natDigitsCore fuel n, ∃ d, d < 10 ∧ c = Char.ofNat (48 + d)
  | 0, n, hn => by omega
  | fuel + 1, n, hn => by
    rw [natDigitsCore]
    by_cases h : n < 10
    · simp only [h, if_true]
      intro c hc
      simp at hc
      exact ⟨n, h, hc⟩
    · simp only [h, if_false]
      intro c hc
      rcases List.mem_append.mp hc with h1 | h1
      · exact natDigitsCore_mem fuel (n / 10) (by omega) c h1
      · simp at h1
        exact ⟨n % 10, Nat.mod_lt _ (by omega), h1⟩

/-- Every character of `natDigits n` is a decimal digit character. -/
theorem natDigits_mem (n : Nat) :
    ∀ c ∈ natDigits n, ∃ d, d < 10 ∧ c = Char.ofNat (48 + d) :=
  natDigitsCore_mem (n + 1) n (by omega)

/-- Facts about a digit character. -/
theorem digitChar_facts (d : Nat) (hd : d < 10) :
    (Char.ofNat (48 + d)).isDigit = true
    ∧ isPySpace (Char.ofNat (48 + d)) = false
    ∧ (Char.ofNat (48 + d)).toNat = 48 + d
    ∧ Char.ofNat (48 + d) ≠ '_'
    ∧ Char.ofNat (48 + d) ≠ '+'
    ∧ Char.ofNat (48 + d) ≠ '-' := by
  interval_cases d <;> exact ⟨rfl, rfl, rfl, by decide, by decide, by decide⟩

/-- `natDigits n` is never empty. -/
theorem natDigits_ne_nil (n : Nat) : natDigits n ≠ [] := by
  rw [natDigits, natDigitsCore]
  split <;> simp

/-- Appending one digit multiplies the value by ten. -/
theorem digitsVal_append (xs : List Char) (c : Char) :
    digitsVal (xs ++ [c]) = 10 * digitsVal xs + (c.toNat - 48) := by
  simp [digitsVal, List.foldl_append]

/-- Reading back the digits of `n` gives `n`. -/
theorem digitsVal_natDigitsCore :
    ∀ (fuel n : Nat), n < fuel → digitsVal (natDigitsCore fuel n) = n
  | 0, n, hn => by omega
  | fuel + 1, n, hn => by
    rw [natDigitsCore]
    by_cases h : n < 10
    · simp only [h, if_true]
      have := (digitChar_facts n h).2.2.1
      simp [digitsVal, this]
    · simp only [h, if_false]
      rw [digitsVal_append, digitsVal_natDigitsCore fuel (n / 10) (by omega),
        (digitChar_facts (n % 10) (Nat.mod_lt _ (by omega))).2.2.1]
      omega

/-- Reading back the digits of `n` gives `n`. -/
theorem digitsVal_natDigits (n : Nat) : digitsVal (natDigits n) = n :=
  digitsVal_natDigitsCore (n + 1) n (by omega)

/-- The rendering of a natural number passes `str.isdigit`. -/
theorem pyIsDigit_pyStrNat (n : Nat) : pyIsDigit (pyStrNat n) = true := by
  simp only [pyIsDigit, pyStrNat, Bool.and_eq_true]
  constructor
  · simpa using natDigits_ne_nil n
  · rw [List.all_eq_true]
    intro c hc
    obtain ⟨d, hd, rfl⟩ := natDigits_mem n c hc
    exact (digitChar_facts d hd).1

/-- `dropWhile` keeps a list none of whose elements satisfy the predicate. -/
theorem dropWhile_eq_self_of_all_false {p : Char → Bool} {l : List Char}
    (h : ∀ c ∈ l, p c = false) : l.dropWhile p = l := by
  cases l with
  | nil => rfl
  | cons a t => simp [List.dropWhile_cons, h a (by simp)]

/-- Stripping whitespace leaves a digit string untouched. -/
theorem pyStrip_pyStrNat (n : Nat) : pyStrip (pyStrNat n) = pyStrNat n := by
  have hns : ∀ c ∈ natDigits n, isPySpace c = false := by
    intro c hc
    obtain ⟨d, hd, rfl⟩ := natDigits_mem n c hc
    exact (digitChar_facts d hd).2.1
  simp only [pyStrip, pyStrNat]
  rw [dropWhile_eq_self_of_all_false hns,
    dropWhile_eq_self_of_all_false (by intro c hc; exact hns c (by simpa using hc)),
    List.reverse_reverse]

/-- `pyIntGo` on a pure digit run folds the digits into the accumulator. -/
theorem pyIntGo_digits :
    ∀ (cs : List Char) (acc : Nat), (∀ c ∈ cs, c.isDigit = true) →
      pyIntGo acc cs = some (cs.foldl (fun a c => 10 * a + (c.toNat - 48)) acc)
  | [], acc, _ => rfl
  | c :: rest, acc, h => by
    have hc : c.isDigit = true := h c (by simp)
    rw [show pyIntGo acc (c :: rest) = pyIntGo (10 * acc + (c.toNat - 48)) rest from by
      rw [pyIntGo.eq_def]
      simp [hc]]
    rw [pyIntGo_digits rest _ (fun c2 hc2 => h c2 (by simp [hc2]))]
    rfl

/-- `int` applied to the rendering of a natural number gives it back. -/
theorem pyInt?_pyStrNat (n : Nat) : pyInt? (pyStrNat n) = some (n : Int) := by
  have hdig : ∀ c ∈ natDigits n, c.isDigit = true := by
    intro c hc
    obtain ⟨d, hd, rfl⟩ := natDigits_mem n c hc
    exact (digitChar_facts d hd).1
  rw [pyInt?, pyStrip_pyStrNat]
  have hdata : (pyStrNat n).data = natDigits n := rfl
  rw [hdata]
  rcases hnd : natDigits n with _ | ⟨c, rest⟩
  · exact absurd hnd (natDigits_ne_nil n)
  · obtain ⟨d, hd, hc⟩ := natDigits_mem n c (by rw [hnd]; simp)
    have hplus : c ≠ '+' := hc ▸ (digitChar_facts d hd).2.2.2.2.1
    have hminus : c ≠ '-' := hc ▸ (digitChar_facts d hd).2.2.2.2.2
    have hcd : c.isDigit = true := hc ▸ (digitChar_facts d hd).1
    split
    · rename_i rest2 heq
      exact absurd (List.cons.injEq .. ▸ heq :
        c = '+' ∧ rest = rest2).1 hplus
    · rename_i rest2 heq
      exact absurd (List.cons.injEq .. ▸ heq :
        c = '-' ∧ rest = rest2).1 hminus
    · rename_i rest2 hne1 hne2
      rw [pyDigits?]
      simp only [hcd, if_true]
      rw [pyIntGo_digits rest _ (fun c2 hc2 => hdig c2 (by rw [hnd]; simp [hc2]))]
      have hval : (c :: rest).foldl (fun a c => 10 * a + (c.toNat - 48)) 0 = n := by
        rw [← hnd]
        exact digitsVal_natDigits n
      rw [List.foldl_cons] at hval
      have hstep : 10 * 0 + (c.toNat - 48) = c.toNat - 48 := by omega
      rw [hstep] at hval
      rw [hval]
      rfl

/-! ## Lemmas on the menu loop -/

/-- What `get_user_choice` can return: `'?'` only when help is allowed,
otherwise the decimal rendering of a zero-based index into the options. -/
theorem get_user_choice_returned {prompt options allow_help}
    {s : String} {rest : List String} :
    ∀ (inputs : List String),
      (GameUI.get_user_choice prompt options allow_help inputs).1 = .returned s rest →
      (s = "?" ∧ allow_help = true) ∨ ∃ i, i < options.length ∧ s = pyStrNat i
  | [], h => by simp [GameUI.get_user_choice] at h
  | raw :: tail, h => by
    simp only [GameUI.get_user_choice] at h
    split at h
    · simp at h
    · split at h
      · rename_i hq
        simp at h
        exact Or.inl ⟨h.1.symm, ((Bool.and_eq_true _ _).mp hq).2⟩
      · split at h
        · rename_i v heq
          split at h
          · rename_i hrange
            simp at h
            refine Or.inr ⟨v.toNat - 1, ?_, h.1.symm⟩
            omega
          · dsimp only at h
            exact get_user_choice_returned tail h
        · dsimp only at h
          exact get_user_choice_returned tail h

/-- Every event a menu interaction emits is a menu display, an input read
or a printed message. -/
theorem get_user_choice_trace_ui {prompt options allow_help} :
    ∀ (inputs : List String) {e : Event},
      e ∈ (GameUI.get_user_choice prompt options allow_help inputs).2 → e.isUIEvent = true
  | [], e, h => by
    simp [GameUI.get_user_choice] at h
    subst h
    rfl
  | raw :: tail, e, h => by
    simp only [GameUI.get_user_choice] at h
    split at h
    · simp at h
      rcases h with rfl | rfl | rfl <;> rfl
    · split at h
      · simp at h
        rcases h with rfl | rfl <;> rfl
      · split at h
        · split at h
          · simp at h
            rcases h with rfl | rfl <;> rfl
          · simp at h
            rcases h with rfl | rfl | rfl | hm
            · rfl
            · rfl
            · rfl
            · exact get_user_choice_trace_ui tail hm
        · simp at h
          rcases h with rfl | rfl | rfl | hm
          · rfl
          · rfl
          · rfl
          · exact get_user_choice_trace_ui tail hm

/-! ## Lemmas on the solicitation loop of the fair protocol -/

/-- A value the solicitation loop accepts is a valid zero-based index into
the option list. -/
theorem solicitCore_got {prompt options} :
    ∀ (fuel : Nat) {inputs : List String}, inputs.length < fuel →
      ∀ {u : Nat} {rest : List String},
        (FairRandomGenerator.solicitCore prompt options fuel inputs).1 = .got u rest →
        u < options.length
  | 0, _, hf, _, _, _ => by omega
  | fuel + 1, inputs, hf, u, rest, h => by
    rw [FairRandomGenerator.solicitCore] at h
    split at h
    · rename_i s rest2 tr heq
      split at h
      · simp at h
        rcases get_user_choice_returned _ (show _ from by rw [heq]) with ⟨_, hfalse⟩ | ⟨i, hi, rfl⟩
        · cases hfalse
        · rw [pyInt?_pyStrNat] at h
          obtain ⟨h1, -⟩ := h
          simp at h1
          omega
      · dsimp only at h
        have hlt : rest2.length < inputs.length :=
          get_user_choice_rest_length _ (show _ from by rw [heq])
        exact solicitCore_got fuel (by omega) h
    · simp at h
    · simp at h

/-- The wrapper `solicit` always runs with enough fuel. -/
theorem solicit_got {prompt options} {inputs : List String} {u : Nat} {rest : List String}
    (h : (FairRandomGenerator.solicit prompt options inputs).1 = .got u rest) :
    u < options.length :=
  solicitCore_got (inputs.length + 1) (by omega) h

/-- The solicitation loop emits only menu/input/message events. -/
theorem solicitCore_trace_ui {prompt options} :
    ∀ (fuel : Nat) {inputs : List String} {e : Event},
      e ∈ (FairRandomGenerator.solicitCore prompt options fuel inputs).2 →
      e.isUIEvent = true
  | 0, inputs, e, h => by simp [FairRandomGenerator.solicitCore] at h
  | fuel + 1, inputs, e, h => by
    rw [FairRandomGenerator.solicitCore] at h
    split at h
    · rename_i s rest2 tr heq
      split at h
      · dsimp only at h
        exact get_user_choice_trace_ui _ (show e ∈ _ from by rw [heq]; exact h)
      · dsimp only at h
        rcases List.mem_append.mp h with h1 | h1
        · exact get_user_choice_trace_ui _ (show e ∈ _ from by rw [heq]; exact h1)
        · exact solicitCore_trace_ui fuel h1
    · rename_i tr heq
      dsimp only at h
      exact get_user_choice_trace_ui _ (show e ∈ _ from by rw [heq]; exact h)
    · rename_i tr heq
      dsimp only at h
      exact get_user_choice_trace_ui _ (show e ∈ _ from by rw [heq]; exact h)

/-- A menu/input/message event is neither an entropy draw nor a reveal. -/
theorem Event.ui_not_gen {e : Event} (h : e.isUIEvent = true) :
    e.isGenKey = false ∧ e.isGenRandom = false ∧ ∀ k m, e ≠ .keyAndMoveShown k m := by
  cases e <;> simp_all [Event.isUIEvent, Event.isGenKey, Event.isGenRandom]

/-- Given the accepted user move, `generate` returns the modular sum.  The
option list of the fair round is `[str(i) for i in range(max_val)]`. -/
theorem generate_result_of_solicit {hmacSha3 : List Nat → List Nat → List Nat}
    {computer_move : Nat} {key : List Nat} {max_val : Nat} {prompt : String}
    {inputs : List String} {u : Nat} {rest : List String}
    (hu : (FairRandomGenerator.solicit prompt
        ((List.range max_val).map (fun i => pyStrNat i)) inputs).1 = .got u rest) :
    (FairRandomGenerator.generate hmacSha3 computer_move key max_val prompt inputs).1
      = .result ((computer_move + u) % max_val) rest := by
  have hfull : FairRandomGenerator.solicit prompt
      ((List.range max_val).map (fun i => pyStrNat i)) inputs
      = (.got u rest, (FairRandomGenerator.solicit prompt
          ((List.range max_val).map (fun i => pyStrNat i)) inputs).2) := by
    rw [← hu]
  simp only [FairRandomGenerator.generate]
  rw [hfull]

/-- Membership form of `solicitCore_trace_ui` for the wrapper. -/
theorem solicit_trace_ui {prompt options} {inputs : List String} {e : Event}
    (h : e ∈ (FairRandomGenerator.solicit prompt options inputs).2) :
    e.isUIEvent = true :=
  solicitCore_trace_ui _ h

/-- C1: for every `rangeSize ≥ 1` (any range with a drawn value below it)
and every human choice accepted by the solicitation loop,
`FairRandomGenerator.generate` returns exactly
`(computerValue + humanValue) mod rangeSize`; the returned value lies in
`[0, rangeSize)`, the accepted human value lies in `[0, rangeSize)`, and
for `rangeSize = 1` the result is `0` (the call does not fail). -/
theorem C1_generate_combines_modulo
    (hmacSha3 : List Nat → List Nat → List Nat) (computer_move : Nat) (key : List Nat)
    (max_val : Nat) (prompt : String) (inputs : List String)
    (user_move : Nat) (rest : List String)
    (hc : computer_move < max_val)
    (hu : (FairRandomGenerator.solicit prompt
        ((List.range max_val).map (fun i => pyStrNat i)) inputs).1 = .got user_move rest) :
    (FairRandomGenerator.generate hmacSha3 computer_move key max_val prompt inputs).1
      = .result ((computer_move + user_move) % max_val) rest
    ∧ (computer_move + user_move) % max_val < max_val
    ∧ user_move < max_val
    ∧ (max_val = 1 → (computer_move + user_move) % max_val = 0) := by
  have h2 : user_move < max_val := by simpa using solicit_got hu
  refine ⟨generate_result_of_solicit hu, Nat.mod_lt _ (by omega), h2, ?_⟩
  intro h1
  subst h1
  simp [Nat.mod_one]

/-- Witness for C1: the spec's die-roll scenario, range 6, computer drew 2,
human enters the menu number 6 and so picks 5: result `(2+5) mod 6 = 1`. -/
theorem C1_generate_combines_modulo_witness :
    2 < 6
    ∧ (FairRandomGenerator.solicit "p"
        ((List.range 6).map (fun i => pyStrNat i)) ["6"]).1 = .got 5 []
    ∧ ((FairRandomGenerator.generate (fun _ _ => []) 2 [] 6 "p" ["6"]).1
        = .result ((2 + 5) % 6) []
      ∧ (2 + 5) % 6 < 6
      ∧ 5 < 6
      ∧ (6 = 1 → (2 + 5) % 6 = 0)) :=
  ⟨by decide, by decide,
    C1_generate_combines_modulo (fun _ _ => []) 2 [] 6 "p" ["6"] 5 []
      (by decide) (by decide)⟩

/-- C2: in every execution of the fair round, the computer's value is
drawn, the fresh key generated and the commitment digest displayed
strictly before any input line is read; the trace contains exactly one
key generation and one value draw (the ones of this call), and the
revealed key and move are this call's key and value — no key or computer
value is carried over from anywhere else. -/
theorem C2_fresh_commitment_precedes_choice
    (hmacSha3 : List Nat → List Nat → List Nat) (computer_move : Nat) (key : List Nat)
    (max_val : Nat) (prompt : String) (inputs : List String) :
    ∃ tail : List Event,
      (FairRandomGenerator.generate hmacSha3 computer_move key max_val prompt inputs).2
        = .genRandom max_val computer_move :: .genKey key
          :: .message ("I have made my choice in range [0.."
              ++ pyStrInt ((max_val : Int) - 1) ++ "].")
          :: .hmacShown (CryptoProvider.calculate_hmac hmacSha3 key (computer_move : Int))
          :: tail
      ∧ (∀ s : String, Event.inputRead s
          ∈ (FairRandomGenerator.generate hmacSha3 computer_move key max_val prompt inputs).2 →
          Event.inputRead s ∈ tail)
      ∧ (FairRandomGenerator.generate hmacSha3 computer_move key max_val prompt inputs).2.filter
          Event.isGenKey = [.genKey key]
      ∧ (FairRandomGenerator.generate hmacSha3 computer_move key max_val prompt inputs).2.filter
          Event.isGenRandom = [.genRandom max_val computer_move]
      ∧ (∀ (k2 : List Nat) (m2 : Nat),
          Event.keyAndMoveShown k2 m2
            ∈ (FairRandomGenerator.generate hmacSha3 computer_move key max_val prompt inputs).2 →
          k2 = key ∧ m2 = computer_move) := by
  rcases hsol : FairRandomGenerator.solicit prompt
      ((List.range max_val).map (fun i => pyStrNat i)) inputs with ⟨o, tr⟩
  have htr : ∀ e ∈ tr, Event.isUIEvent e = true := by
    intro e he
    refine solicit_trace_ui (show e ∈ (FairRandomGenerator.solicit prompt
        ((List.range max_val).map (fun i => pyStrNat i)) inputs).2 from ?_)
    rw [hsol]
    exact he
  have htr_nil_key : tr.filter Event.isGenKey = [] := by
    rw [List.filter_eq_nil_iff]
    intro e he
    simp [(Event.ui_not_gen (htr e he)).1]
  have htr_nil_rand : tr.filter Event.isGenRandom = [] := by
    rw [List.filter_eq_nil_iff]
    intro e he
    simp [(Event.ui_not_gen (htr e he)).2.1]
  simp only [FairRandomGenerator.generate]
  rw [hsol]
  cases o with
  | got u rest =>
    refine ⟨tr ++ [.keyAndMoveShown key computer_move,
      .message ("Result: (" ++ pyStrNat computer_move ++ " + " ++ pyStrNat u
        ++ ") mod " ++ pyStrNat max_val ++ " = "
        ++ pyStrNat ((computer_move + u) % max_val))], by simp, ?_, ?_, ?_, ?_⟩
    · intro s hs
      simp at hs
      simp
      exact hs
    · simp [List.filter_append, htr_nil_key, Event.isGenKey]
    · simp [List.filter_append, htr_nil_rand, Event.isGenRandom]
    · intro k2 m2 hmem
      simp at hmem
      rcases hmem with h1 | h1
      · exact absurd rfl ((Event.ui_not_gen (htr _ h1)).2.2 k2 m2)
      · exact h1
  | exited =>
    refine ⟨tr, by simp, ?_, ?_, ?_, ?_⟩
    · intro s hs
      simp at hs
      simpa using hs
    · simp [List.filter_append, htr_nil_key, Event.isGenKey]
    · simp [List.filter_append, htr_nil_rand, Event.isGenRandom]
    · intro k2 m2 hmem
      simp at hmem
      exact absurd rfl ((Event.ui_not_gen (htr _ hmem)).2.2 k2 m2)
  | eof =>
    refine ⟨tr, by simp, ?_, ?_, ?_, ?_⟩
    · intro s hs
      simp at hs
      simpa using hs
    · simp [List.filter_append, htr_nil_key, Event.isGenKey]
    · simp [List.filter_append, htr_nil_rand, Event.isGenRandom]
    · intro k2 m2 hmem
      simp at hmem
      exact absurd rfl ((Event.ui_not_gen (htr _ hmem)).2.2 k2 m2)

/-- C3 (supporting theorem): against the spec-modelled `verify` and the
commitment actually built inside the fair round, recompute-and-compare
succeeds for every key and value, whatever the HMAC core is.  The bug is
that `game.py` exposes no `verify` at all. -/
theorem C3_verify_accepts_commit (hmacSha3 : List Nat → List Nat → List Nat)
    (key : List Nat) (value : Int) :
    CryptoProvider.verify hmacSha3 key value
      (CryptoProvider.commit hmacSha3 key value).2 = true := by
  simp [CryptoProvider.verify, CryptoProvider.commit]

/-- The fair round never displays the help table: `generate` calls the
menu with help disabled and emits no `helpShown` event. -/
theorem generate_no_help (hmacSha3 : List Nat → List Nat → List Nat)
    (computer_move : Nat) (key : List Nat) (max_val : Nat)
    (prompt : String) (inputs : List String) (probs : List (List Rat)) :
    Event.helpShown probs
      ∉ (FairRandomGenerator.generate hmacSha3 computer_move key max_val prompt inputs).2 := by
  rcases hsol : FairRandomGenerator.solicit prompt
      ((List.range max_val).map (fun i => pyStrNat i)) inputs with ⟨o, tr⟩
  have htr : ∀ e ∈ tr, Event.isUIEvent e = true := by
    intro e he
    refine solicit_trace_ui (show e ∈ (FairRandomGenerator.solicit prompt
        ((List.range max_val).map (fun i => pyStrNat i)) inputs).2 from ?_)
    rw [hsol]
    exact he
  simp only [FairRandomGenerator.generate]
  rw [hsol]
  cases o with
  | got u rest =>
    intro hmem
    simp at hmem
    have := htr _ hmem
    simp [Event.isUIEvent] at this
  | exited =>
    intro hmem
    simp at hmem
    have := htr _ hmem
    simp [Event.isUIEvent] at this
  | eof =>
    intro hmem
    simp at hmem
    have := htr _ hmem
    simp [Event.isUIEvent] at this

/-- C7 (amended): during a fair round the menu runs with help disabled, so
a help request `"?"` is treated as invalid input and re-prompts in place;
any unparsable or out-of-range input likewise re-prompts, without bound,
until a valid menu number (returned as its zero-based index) or the exit
input `"0"` (which ends the session); and no help table is ever displayed
by `FairRandomGenerator.generate` — the help diversion exists only in the
die-selection menu. -/
theorem C7_fair_round_help_request_reprompts :
    (∀ (prompt : String) (options : List String) (rest : List String),
      (GameUI.get_user_choice prompt options false ("?" :: rest)).1
        = (GameUI.get_user_choice prompt options false rest).1)
  ∧ (∀ (prompt : String) (options : List String) (raw : String) (rest : List String),
      pyStripLower raw ≠ "0" → pyInt? (pyStripLower raw) = none →
      (GameUI.get_user_choice prompt options false (raw :: rest)).1
        = (GameUI.get_user_choice prompt options false rest).1)
  ∧ (∀ (prompt : String) (options : List String) (raw : String) (rest : List String) (v : Int),
      pyStripLower raw ≠ "0" → pyInt? (pyStripLower raw) = some v →
      ¬(1 ≤ v ∧ v ≤ (options.length : Int)) →
      (GameUI.get_user_choice prompt options false (raw :: rest)).1
        = (GameUI.get_user_choice prompt options false rest).1)
  ∧ (∀ (prompt : String) (options : List String) (raw : String) (rest : List String),
      pyStripLower raw = "0" →
      (GameUI.get_user_choice prompt options false (raw :: rest)).1 = .exited)
  ∧ (∀ (prompt : String) (options : List String) (raw : String) (rest : List String) (v : Int),
      pyStripLower raw ≠ "0" → pyInt? (pyStripLower raw) = some v →
      1 ≤ v → v ≤ (options.length : Int) →
      (GameUI.get_user_choice prompt options false (raw :: rest)).1
        = .returned (pyStrNat (v - 1).toNat) rest)
  ∧ (∀ (hmacSha3 : List Nat → List Nat → List Nat) (computer_move : Nat) (key : List Nat)
      (max_val : Nat) (prompt : String) (inputs : List String) (probs : List (List Rat)),
      Event.helpShown probs
        ∉ (FairRandomGenerator.generate hmacSha3 computer_move key max_val prompt inputs).2) := by
  refine ⟨?_, ?_, ?_, ?_, ?_, generate_no_help⟩
  · intro prompt options rest
    simp [GameUI.get_user_choice, show pyStripLower "?" = "?" from rfl,
      show pyInt? "?" = none from rfl]
  · intro prompt options raw rest h0 hnone
    simp [GameUI.get_user_choice, h0, hnone]
  · intro prompt options raw rest v h0 hsome hrange
    simp [GameUI.get_user_choice, h0, hsome, hrange]
  · intro prompt options raw rest h0
    simp [GameUI.get_user_choice, h0]
  · intro prompt options raw rest v h0 hsome h1 h2
    simp [GameUI.get_user_choice, h0, hsome, h1, h2]

/-- C7 counterexample: a concrete fair round with range 2 in which the
human first enters the help request `"?"`: no help table is shown — the
input is consumed as invalid and the menu is shown again — and the round
completes with the next input; the same menu call with help enabled
would have returned `"?"`. -/
theorem C7_fair_round_help_request_reprompts_counterexample :
    (FairRandomGenerator.generate (fun _ _ => []) 0 [] 2 "p" ["?", "2"]).1 = .result 1 []
  ∧ (∀ probs : List (List Rat), Event.helpShown probs
      ∉ (FairRandomGenerator.generate (fun _ _ => []) 0 [] 2 "p" ["?", "2"]).2)
  ∧ (GameUI.get_user_choice "p" ["0", "1"] true ["?", "2"]).1 = .returned "?" ["2"]
  ∧ (GameUI.get_user_choice "p" ["0", "1"] false ["?", "2"]).1 = .returned "1" [] :=
  ⟨by decide, fun probs => generate_no_help (fun _ _ => []) 0 [] 2 "p" ["?", "2"] probs,
    by decide, by decide⟩

/-- C8: the first-mover toss runs the fair protocol with range 2; the
human moves first exactly when the combined result is 0 — then and only
then the die selection opens with "You get to choose first" — and in the
concrete scenario where the human picks 1 (menu number 2) while the
computer drew 0 the result is 1 and the computer moves first. -/
theorem C8_toss_user_first_iff_zero
    (hmacSha3 : List Nat → List Nat → List Nat) (computer_move : Nat) (key : List Nat)
    (inputs : List String) (r : Nat) (rest : List String)
    (h : (GameController.first_move_toss hmacSha3 computer_move key inputs).1
        = .result r rest) :
    (GameController.user_goes_first r = true ↔ r = 0)
  ∧ (∀ (all_dice : List Die) (pc_pick : Nat) (inputs2 : List String),
      ((GameController.select_dice all_dice pc_pick (GameController.user_goes_first r)
          inputs2).2.head?
        = some (.message "\nYou get to choose first.")) ↔ r = 0)
  ∧ ((GameController.first_move_toss (fun _ _ => []) 0 [] ["2"]).1 = .result 1 []
      ∧ GameController.user_goes_first 1 = false) := by
  have hiff : GameController.user_goes_first r = true ↔ r = 0 := by
    simp [GameController.user_goes_first]
  refine ⟨hiff, ?_, by decide, by decide⟩
  intro all_dice pc_pick inputs2
  by_cases hr : r = 0
  · have hu : GameController.user_goes_first r = true := hiff.mpr hr
    rw [hu]
    simp only [GameController.select_dice, if_true]
    rcases hgp : GameController.get_player_die_choice all_dice all_dice inputs2 with ⟨o2, tr2⟩
    cases o2 with
    | chose d rest2 =>
      rcases hget : (all_dice.erase d)[pc_pick]? with _ | cd <;> simp [hgp, hget, hr]
    | exited => simp [hgp, hr]
    | eof => simp [hgp, hr]
    | indexError => simp [hgp, hr]
  · have hu : GameController.user_goes_first r = false := by
      rcases hb : GameController.user_goes_first r with _ | _
      · rfl
      · exact absurd (hiff.mp hb) hr
    rw [hu]
    simp only [GameController.select_dice, Bool.false_eq_true, if_false]
    rcases hget : all_dice[pc_pick]? with _ | cd
    · simp [hget, hr]
    · simp only [hget]
      rcases hgp : GameController.get_player_die_choice all_dice (all_dice.erase cd) inputs2
        with ⟨o2, tr2⟩
      cases o2 <;> simp [hgp, hr]

/-- Witness for C8: computer drew 0, the human enters menu number 1 and so
picks 0; the combined result is 0 and the human moves first. -/
theorem C8_toss_user_first_iff_zero_witness :
    (GameController.first_move_toss (fun _ _ => []) 0 [] ["1"]).1 = .result 0 []
  ∧ ((GameController.user_goes_first 0 = true ↔ 0 = 0)
    ∧ (∀ (all_dice : List Die) (pc_pick : Nat) (inputs2 : List String),
        ((GameController.select_dice all_dice pc_pick (GameController.user_goes_first 0)
            inputs2).2.head?
          = some (.message "\nYou get to choose first.")) ↔ 0 = 0)
    ∧ ((GameController.first_move_toss (fun _ _ => []) 0 [] ["2"]).1 = .result 1 []
        ∧ GameController.user_goes_first 1 = false)) :=
  ⟨by decide, C8_toss_user_first_iff_zero (fun _ _ => []) 0 [] ["1"] 0 [] (by decide)⟩

/-! ## Lemmas on the argument parser -/

/-- Converting a token list with `int` fails exactly when some token fails. -/
theorem parseFaces_eq (ts : List String) :
    DiceParser.parseFaces ts
      = if ts.any (fun t => (pyInt? t).isNone) then none
        else some (ts.filterMap pyInt?) := by
  induction ts with
  | nil => simp [DiceParser.parseFaces]
  | cons t ts ih =>
    cases ht : pyInt? t with
    | none => simp [DiceParser.parseFaces, ht]
    | some v =>
      by_cases h : ts.any (fun t => (pyInt? t).isNone)
      · simp [DiceParser.parseFaces, ht, ih, h]
      · simp [DiceParser.parseFaces, ht, ih, h, List.filterMap_cons]

/-- One pass of the parsing loop, characterised: it fails (with the
non-integer error) exactly on an argument with no usable token or with an
unconvertible token. -/
theorem parseDie_eq (a : String) :
    DiceParser.parseDie a
      = if (pyTokens a).isEmpty || (pyTokens a).any (fun t => (pyInt? t).isNone)
        then .error .nonIntegerValue
        else .ok ⟨(pyTokens a).filterMap pyInt?⟩ := by
  simp only [DiceParser.parseDie]
  rw [parseFaces_eq]
  by_cases h : (pyTokens a).any (fun t => (pyInt? t).isNone)
  · simp [h]
  · simp only [h, if_false, Bool.or_false]
    cases hts : pyTokens a with
    | nil => simp
    | cons t ts =>
      have hs : (pyInt? t).isNone = false := by
        have := h
        rw [hts] at this
        simp at this
        cases hpt : pyInt? t
        · rw [hpt] at this
          simp at this
        · simp
      cases hpt : pyInt? t with
      | none => rw [hpt] at hs; simp at hs
      | some v => simp [List.filterMap_cons, hpt]

/-- The parsing loop over all arguments, characterised. -/
theorem parseDice_eq (args : List String) :
    DiceParser.parseDice args
      = if args.any (fun a =>
            (pyTokens a).isEmpty || (pyTokens a).any (fun t => (pyInt? t).isNone))
        then .error .nonIntegerValue
        else .ok (args.map (fun a => Die.mk ((pyTokens a).filterMap pyInt?))) := by
  induction args with
  | nil => simp [DiceParser.parseDice]
  | cons a args ih =>
    rw [show DiceParser.parseDice (a :: args)
        = (match DiceParser.parseDie a with
          | .error e => .error e
          | .ok d =>
            match DiceParser.parseDice args with
            | .error e => .error e
            | .ok ds => .ok (d :: ds)) from rfl, parseDie_eq]
    by_cases ha : (pyTokens a).isEmpty || (pyTokens a).any (fun t => (pyInt? t).isNone)
    · simp [ha]
    · by_cases hrest : args.any (fun a =>
          (pyTokens a).isEmpty || (pyTokens a).any (fun t => (pyInt? t).isNone))
      · simp [ha, hrest, ih]
      · simp [ha, hrest, ih]

/-- C6 key lemma: `DiceParser.parse` behaves exactly as the amended
description. -/
theorem parse_eq_described (args : List String) :
    DiceParser.parse args = DiceParser.parse_described args := by
  simp only [DiceParser.parse, DiceParser.parse_described]
  by_cases hlen : args.length < 3
  · simp [hlen]
  · simp only [hlen, if_false]
    rw [parseDice_eq]
    by_cases hbad : args.any (fun a =>
        (pyTokens a).isEmpty || (pyTokens a).any (fun t => (pyInt? t).isNone))
    · simp [hbad]
    · simp [hbad]

/-- C6 (amended): `DiceParser.parse` succeeds exactly on argument lists
with at least three die strings in which every argument has at least one
nonempty comma-separated token, every such token parses as an integer, and
all resulting dice have equal face counts; the checks fire in order:
not-enough-dice on fewer than three arguments, then the non-integer error
on an unconvertible token or an argument with no usable token, then the
inconsistent-faces error on mismatched counts.  The spec's four vectors
behave as stated (the two-dice mismatched vector already fails the length
check). -/
theorem C6_parse_characterised :
    (∀ args : List String, DiceParser.parse args = DiceParser.parse_described args)
  ∧ DiceParser.parse ["2,2,4,4,9,9", "1,1,6,6,8,8", "3,3,5,5,7,7"]
      = .ok [⟨[2, 2, 4, 4, 9, 9]⟩, ⟨[1, 1, 6, 6, 8, 8]⟩, ⟨[3, 3, 5, 5, 7, 7]⟩]
  ∧ DiceParser.parse ["1,2", "3,4"] = .error .notEnoughDice
  ∧ DiceParser.parse ["1,2,3", "1,2"] = .error .notEnoughDice
  ∧ DiceParser.parse ["1,a,3", "4,5,6", "7,8,9"] = .error .nonIntegerValue :=
  ⟨parse_eq_described, by decide, by decide, by decide, by decide⟩

/-- C6 counterexample: the list `[",", ",", ","]` has three arguments,
every nonempty token of every argument parses as an integer (vacuously —
there are none) and all token counts agree, yet `parse` raises the
non-integer error instead of succeeding, because each `Die` would be
empty. -/
theorem C6_parse_characterised_counterexample :
    3 ≤ ([",", ",", ","] : List String).length
  ∧ (∀ a ∈ ([",", ",", ","] : List String), ∀ t ∈ pyTokens a, (pyInt? t).isSome = true)
  ∧ (∀ a ∈ ([",", ",", ","] : List String), ∀ b ∈ ([",", ",", ","] : List String),
      (pyTokens a).length = (pyTokens b).length)
  ∧ DiceParser.parse [",", ",", ","] = .error .nonIntegerValue := by decide

/-- C9: an argument list of length at least three in which some argument
has no nonempty comma-separated token makes `DiceParser.parse` raise the
non-integer-value error (the empty face list raised by `Die.__init__` is
caught by the same `except ValueError` as a failed conversion). -/
theorem C9_empty_arg_raises_noninteger (args : List String)
    (hlen : 3 ≤ args.length) (h : ∃ a ∈ args, pyTokens a = []) :
    DiceParser.parse args = .error .nonIntegerValue := by
  obtain ⟨a, ha, hta⟩ := h
  have hany : args.any (fun a =>
      (pyTokens a).isEmpty || (pyTokens a).any (fun t => (pyInt? t).isNone)) = true :=
    List.any_eq_true.mpr ⟨a, ha, by simp [hta]⟩
  rw [parse_eq_described]
  simp [DiceParser.parse_described, hany, show ¬args.length < 3 by omega]

/-- Witness for C9: the argument `","` splits into no usable token. -/
theorem C9_empty_arg_raises_noninteger_witness :
    3 ≤ ([",", "1", "2"] : List String).length
  ∧ (∃ a ∈ ([",", "1", "2"] : List String), pyTokens a = [])
  ∧ DiceParser.parse [",", "1", "2"] = .error .nonIntegerValue :=
  ⟨by decide, by decide,
    C9_empty_arg_raises_noninteger [",", "1", "2"] (by decide) ⟨",", by decide, by decide⟩⟩

/-! ## Index-safety lemmas (C10) -/

/-- A nonempty token list whose tokens all convert yields a nonempty face
list. -/
theorem filterMap_pyInt?_ne_nil {ts : List String} (hne : ts ≠ [])
    (hs : ∀ t ∈ ts, (pyInt? t).isNone = false) : ts.filterMap pyInt? ≠ [] := by
  cases ts with
  | nil => simp at hne
  | cons t ts =>
    have h1 := hs t (by simp)
    cases ht : pyInt? t with
    | none => rw [ht] at h1; simp at h1
    | some v => simp [List.filterMap_cons, ht]

/-- Dice accepted by the parser have pairwise equal, positive face
counts. -/
theorem parse_ok_dice {args : List String} {dice : List Die}
    (h : DiceParser.parse args = .ok dice) :
    ∀ d ∈ dice, 0 < d.faces.length ∧ ∀ d2 ∈ dice, d2.faces.length = d.faces.length := by
  rw [parse_eq_described] at h
  simp only [DiceParser.parse_described] at h
  split at h
  · simp at h
  · split at h
    · simp at h
    · rename_i hlen hbad
      split at h
      · rename_i hall
        have hdice : args.map (fun a => Die.mk ((pyTokens a).filterMap pyInt?)) = dice := by
          simpa using h
        subst hdice
        intro d hd
        have hbad2 : ∀ a ∈ args,
            ¬((pyTokens a).isEmpty || (pyTokens a).any (fun t => (pyInt? t).isNone)) = true := by
          intro a ha
          intro hcon
          exact hbad (List.any_eq_true.mpr ⟨a, ha, hcon⟩)
        constructor
        · obtain ⟨a, ha, rfl⟩ := List.mem_map.mp hd
          have := hbad2 a ha
          simp only [Bool.or_eq_true, not_or] at this
          have hne : pyTokens a ≠ [] := by
            intro hcon
            exact this.1 (by simp [hcon])
          have hsome : ∀ t ∈ pyTokens a, (pyInt? t).isNone = false := by
            intro t ht
            rcases hpt : (pyInt? t).isNone with _ | _
            · rfl
            · exact absurd (List.any_eq_true.mpr ⟨t, ht, hpt⟩) this.2
          have := filterMap_pyInt?_ne_nil hne hsome
          simp only [Die.mk.injEq]
          cases hfm : (pyTokens a).filterMap pyInt? with
          | nil => exact absurd hfm this
          | cons x xs => simp
        · intro d2 hd2
          rw [List.all_eq_true] at hall
          have e1 := hall d hd
          have e2 := hall d2 hd2
          simp only [beq_iff_eq] at e1 e2
          rw [e1, e2]
      · simp at h

/-- A fair round that returns a result returns one below the range. -/
theorem generate_result_lt {hmacSha3 : List Nat → List Nat → List Nat}
    {computer_move : Nat} {key : List Nat} {max_val : Nat} {prompt : String}
    {inputs : List String} {r : Nat} {rest : List String}
    (hpos : 0 < max_val)
    (h : (FairRandomGenerator.generate hmacSha3 computer_move key max_val prompt inputs).1
        = .result r rest) :
    r < max_val := by
  simp only [FairRandomGenerator.generate] at h
  split at h
  · simp at h
    obtain ⟨h1, -⟩ := h
    subst h1
    exact Nat.mod_lt _ hpos
  · simp at h
  · simp at h

/-- The die-selection menu loop never indexes out of bounds. -/
theorem getPlayerDieChoiceCore_no_indexError (all_dice available_dice : List Die) :
    ∀ (fuel : Nat) {inputs : List String}, inputs.length < fuel →
      (GameController.getPlayerDieChoiceCore all_dice available_dice fuel inputs).1
        ≠ .indexError
  | 0, inputs, hf => by omega
  | fuel + 1, inputs, hf => by
    rw [GameController.getPlayerDieChoiceCore]
    split
    · rename_i s rest tr heq
      split
      · dsimp only
        have hlt : rest.length < inputs.length :=
          get_user_choice_rest_length _ (show _ from by rw [heq])
        exact getPlayerDieChoiceCore_no_indexError all_dice available_dice fuel (by omega)
      · rename_i hneq
        rcases get_user_choice_returned _ (show _ from by rw [heq]) with ⟨hq, -⟩ | ⟨i, hi, rfl⟩
        · exact absurd hq hneq
        · rw [pyInt?_pyStrNat]
          simp only [Option.getD_some, Int.toNat_natCast]
          simp only [List.length_map] at hi
          rw [List.getElem?_eq_getElem hi]
          simp
    · simp
    · simp

/-- Wrapper form: `_get_player_die_choice` never indexes out of bounds. -/
theorem get_player_die_choice_no_indexError
    (all_dice available_dice : List Die) (inputs : List String) :
    (GameController.get_player_die_choice all_dice available_dice inputs).1 ≠ .indexError :=
  getPlayerDieChoiceCore_no_indexError all_dice available_dice (inputs.length + 1) (by omega)

/-- The two roll indexings of `_play_round` are in bounds whenever the two
dice have the same positive number of faces. -/
theorem roll_phase_no_indexError {hmacSha3 : List Nat → List Nat → List Nat}
    {c1 : Nat} {k1 : List Nat} {c2 : Nat} {k2 : List Nat}
    {player_die computer_die : Die} {inputs : List String}
    (hlen : computer_die.faces.length = player_die.faces.length)
    (hpos : 0 < player_die.faces.length) :
    (GameController.roll_phase hmacSha3 c1 k1 c2 k2 player_die computer_die inputs).1
      ≠ .indexError := by
  simp only [GameController.roll_phase]
  split
  · rename_i r1 rest1 tr1 heq1
    have hr1 : r1 < player_die.faces.length :=
      generate_result_lt hpos (show _ from by rw [heq1])
    rw [List.getElem?_eq_getElem (by omega)]
    dsimp only
    split
    · rename_i r2 rest2 tr2 heq2
      have hr2 : r2 < player_die.faces.length :=
        generate_result_lt hpos (show _ from by rw [heq2])
      rw [List.getElem?_eq_getElem hr2]
      simp
    · simp
    · simp
  · simp
  · simp

/-- C10: every non-help string the menu returns is the decimal rendering
of an index in `[0, len(options))`; hence the die-selection indexing
`available_dice[int(choice_str)]` never fails, and for dice accepted by
`DiceParser.parse` the two roll indexings `faces[roll_index]` are always
in bounds. -/
theorem C10_menu_indices_in_bounds :
    (∀ (prompt : String) (options : List String) (allow_help : Bool)
        (inputs : List String) (s : String) (rest : List String),
      (GameUI.get_user_choice prompt options allow_help inputs).1 = .returned s rest →
      s ≠ "?" → ∃ i, i < options.length ∧ s = pyStrNat i)
  ∧ (∀ (all_dice available_dice : List Die) (inputs : List String),
      (GameController.get_player_die_choice all_dice available_dice inputs).1 ≠ .indexError)
  ∧ (∀ (args : List String) (dice : List Die), DiceParser.parse args = .ok dice →
      ∀ player_die ∈ dice, ∀ computer_die ∈ dice,
      ∀ (hmacSha3 : List Nat → List Nat → List Nat) (c1 : Nat) (k1 : List Nat)
        (c2 : Nat) (k2 : List Nat) (inputs : List String),
      (GameController.roll_phase hmacSha3 c1 k1 c2 k2 player_die computer_die inputs).1
        ≠ .indexError) := by
  refine ⟨?_, get_player_die_choice_no_indexError, ?_⟩
  · intro prompt options allow_help inputs s rest h hne
    rcases get_user_choice_returned _ h with ⟨hq, -⟩ | hi
    · exact absurd hq hne
    · exact hi
  · intro args dice hparse player_die hpd computer_die hcd hmacSha3 c1 k1 c2 k2 inputs
    obtain ⟨hpos, hall⟩ := parse_ok_dice hparse player_die hpd
    exact roll_phase_no_indexError (hall computer_die hcd) hpos

/-! ## Counting lemmas for the probability table -/

/-- Summing a constant over a list. -/
theorem sum_map_const (l : List Int) (c : Nat) :
    (l.map (fun _ => c)).sum = l.length * c := by
  induction l with
  | nil => simp
  | cons b t ih => simp [ih, Nat.succ_mul, Nat.add_comm]

/-- Sums of pointwise sums split. -/
theorem sum_map_add (l : List Int) (f g : Int → Nat) :
    (l.map (fun x => f x + g x)).sum = (l.map f).sum + (l.map g).sum := by
  induction l with
  | nil => simp
  | cons b t ih => simp [ih]; omega

/-- Counting over a cross product can be summed in either order. -/
theorem sum_countP_comm (p : Int → Int → Bool) (l1 l2 : List Int) :
    (l1.map (fun a => l2.countP (p a))).sum
      = (l2.map (fun b => l1.countP (fun a => p a b))).sum := by
  induction l2 generalizing l1 with
  | nil => simp
  | cons b t ih =>
    have hsplit : (l1.map (fun a => (b :: t).countP (p a))).sum
        = l1.countP (fun a => p a b) + (l1.map (fun a => t.countP (p a))).sum := by
      induction l1 with
      | nil => simp
      | cons a l1 ih1 =>
        simp only [List.map_cons, List.sum_cons]
        rw [ih1, List.countP_cons, List.countP_cons]
        cases hpb : p a b <;> simp <;> omega
    rw [hsplit, ih]
    simp

/-- For every pair of faces exactly one of `a > b`, `b > a`, `a = b`
holds, so the three counts fill the list. -/
theorem countP_trichotomy (a : Int) (l : List Int) :
    l.countP (fun b => decide (a > b)) + l.countP (fun b => decide (b > a))
      + l.countP (fun b => decide (a = b)) = l.length := by
  induction l with
  | nil => simp
  | cons b t ih =>
    simp only [List.countP_cons, List.length_cons]
    rcases lt_trichotomy a b with h | rfl | h
    · rw [show decide (a > b) = false from by simp; omega,
        show decide (b > a) = true from by simp [h],
        show decide (a = b) = false from by simp; omega]
      simp only [Bool.false_eq_true, if_false, eq_self_iff_true, if_true]
      omega
    · rw [show decide (a > a) = false from by simp,
        show decide (a = a) = true from by simp]
      simp only [Bool.false_eq_true, if_false, eq_self_iff_true, if_true]
      omega
    · rw [show decide (a > b) = true from by simp [h],
        show decide (b > a) = false from by simp; omega,
        show decide (a = b) = false from by simp; omega]
      simp only [Bool.false_eq_true, if_false, eq_self_iff_true, if_true]
      omega

/-- Wins, losses and ties partition the face pairs. -/
theorem count_wins_ties_total (A B : Die) :
    ProbabilityCalculator.count_wins A B + ProbabilityCalculator.count_wins B A
      + ProbabilityCalculator.count_ties A B
      = A.faces.length * B.faces.length := by
  simp only [ProbabilityCalculator.count_wins, ProbabilityCalculator.count_ties]
  rw [sum_countP_comm (fun face1 face2 => decide (face1 > face2)) B.faces A.faces]
  rw [← sum_map_add, ← sum_map_add]
  rw [List.map_congr_left (fun a _ => countP_trichotomy a B.faces)]
  rw [sum_map_const]

/-- C5: for every pair of nonempty dice, win, loss and tie fractions sum
to one, and equivalently `P(A beats B) = 1 - P(B beats A) - P(tie)`. -/
theorem C5_win_loss_tie_partition (A B : Die)
    (hA : A.faces ≠ []) (hB : B.faces ≠ []) :
    ProbabilityCalculator.calculate_win_probability A B
      + ProbabilityCalculator.calculate_win_probability B A
      + ProbabilityCalculator.tie_fraction A B = 1
    ∧ ProbabilityCalculator.calculate_win_probability A B
      = 1 - ProbabilityCalculator.calculate_win_probability B A
        - ProbabilityCalculator.tie_fraction A B := by
  have hA2 : A.faces.length ≠ 0 := fun hcon => hA (List.length_eq_zero.mp hcon)
  have hB2 : B.faces.length ≠ 0 := fun hcon => hB (List.length_eq_zero.mp hcon)
  have htot : ¬A.faces.length * B.faces.length = 0 := by
    intro hcon
    rcases Nat.mul_eq_zero.mp hcon with hc | hc
    · exact hA2 hc
    · exact hB2 hc
  have htot2 : ¬B.faces.length * A.faces.length = 0 := by
    rw [Nat.mul_comm]
    exact htot
  have key : ProbabilityCalculator.calculate_win_probability A B
      + ProbabilityCalculator.calculate_win_probability B A
      + ProbabilityCalculator.tie_fraction A B = 1 := by
    simp only [ProbabilityCalculator.calculate_win_probability,
      ProbabilityCalculator.tie_fraction, if_neg htot, if_neg htot2]
    rw [show B.faces.length * A.faces.length = A.faces.length * B.faces.length from
      Nat.mul_comm _ _]
    rw [div_add_div_same, div_add_div_same, ← Nat.cast_add, ← Nat.cast_add,
      count_wins_ties_total A B]
    rw [div_self (by exact_mod_cast htot)]
  exact ⟨key, by linarith⟩

/-- Witness for C5: the first two dice of the spec's worked example. -/
theorem C5_win_loss_tie_partition_witness :
    (Die.mk [2, 2, 4, 4, 9, 9]).faces ≠ []
    ∧ (Die.mk [1, 1, 6, 6, 8, 8]).faces ≠ []
    ∧ (ProbabilityCalculator.calculate_win_probability ⟨[2, 2, 4, 4, 9, 9]⟩ ⟨[1, 1, 6, 6, 8, 8]⟩
        + ProbabilityCalculator.calculate_win_probability ⟨[1, 1, 6, 6, 8, 8]⟩ ⟨[2, 2, 4, 4, 9, 9]⟩
        + ProbabilityCalculator.tie_fraction ⟨[2, 2, 4, 4, 9, 9]⟩ ⟨[1, 1, 6, 6, 8, 8]⟩ = 1
      ∧ ProbabilityCalculator.calculate_win_probability ⟨[2, 2, 4, 4, 9, 9]⟩ ⟨[1, 1, 6, 6, 8, 8]⟩
        = 1 - ProbabilityCalculator.calculate_win_probability ⟨[1, 1, 6, 6, 8, 8]⟩ ⟨[2, 2, 4, 4, 9, 9]⟩
          - ProbabilityCalculator.tie_fraction ⟨[2, 2, 4, 4, 9, 9]⟩ ⟨[1, 1, 6, 6, 8, 8]⟩) :=
  ⟨by decide, by decide,
    C5_win_loss_tie_partition ⟨[2, 2, 4, 4, 9, 9]⟩ ⟨[1, 1, 6, 6, 8, 8]⟩
      (by decide) (by decide)⟩

/-- One cell of the probability matrix. -/
theorem generate_table_probs_cell (dice : List Die) (i j : Nat)
    (hi : i < dice.length) (hj : j < dice.length) :
    ((HelpTableGenerator.generate_table_probs dice).getD i []).getD j 0
      = HelpTableGenerator.cellProb (dice.getD i default) (dice.getD j default) (i == j) := by
  simp only [HelpTableGenerator.generate_table_probs]
  rw [List.getD_eq_getElem?_getD, List.getD_eq_getElem?_getD, List.getElem?_map,
    List.getElem?_range hi]
  simp only [Option.map_some', Option.getD_some]
  rw [List.getElem?_map, List.getElem?_range hj]
  simp only [Option.map_some', Option.getD_some]

/-- The two branches of the diagonal test compute the same probability. -/
theorem cellProb_eq_win_probability (user_die pc_die : Die) (sameDie : Bool) :
    HelpTableGenerator.cellProb user_die pc_die sameDie
      = ProbabilityCalculator.calculate_win_probability user_die pc_die := by
  cases sameDie <;> rfl

/-- C4: each cell of the probability table, the diagonal included, is the
number of strictly-winning face pairs divided by the product of the face
counts; both branches of the `user_die is pc_die` test compute the same
number (the asterisks are display only), and the diagonal is not
special-cased to one half — the die `[1,2,3]` against itself gives 1/3. -/
theorem C4_table_cell_strict_cross_product (dice : List Die) (i j : Nat)
    (hi : i < dice.length) (hj : j < dice.length)
    (hpos : 0 < (dice.getD i default).faces.length * (dice.getD j default).faces.length) :
    ((HelpTableGenerator.generate_table_probs dice).getD i []).getD j 0
      = (ProbabilityCalculator.count_wins (dice.getD i default) (dice.getD j default) : Rat)
        / (((dice.getD i default).faces.length * (dice.getD j default).faces.length : Nat) : Rat)
    ∧ (∀ (user_die pc_die : Die) (sameDie : Bool),
        HelpTableGenerator.cellProb user_die pc_die sameDie
          = ProbabilityCalculator.calculate_win_probability user_die pc_die)
    ∧ ProbabilityCalculator.calculate_win_probability ⟨[1, 2, 3]⟩ ⟨[1, 2, 3]⟩ = 1 / 3
    ∧ ProbabilityCalculator.calculate_win_probability ⟨[1, 2, 3]⟩ ⟨[1, 2, 3]⟩ ≠ 1 / 2 := by
  have h13 : ProbabilityCalculator.calculate_win_probability ⟨[1, 2, 3]⟩ ⟨[1, 2, 3]⟩
      = 1 / 3 := by
    norm_num [ProbabilityCalculator.calculate_win_probability,
      ProbabilityCalculator.count_wins, List.countP, List.countP.go]
  refine ⟨?_, cellProb_eq_win_probability, h13, by rw [h13]; norm_num⟩
  rw [generate_table_probs_cell dice i j hi hj, cellProb_eq_win_probability]
  simp only [ProbabilityCalculator.calculate_win_probability]
  rw [if_neg (show ¬((dice.getD i default).faces.length
      * (dice.getD j default).faces.length = 0) from by omega)]

/-- Witness for C4: the diagonal cell of the one-die table for `[1,2,3]`. -/
theorem C4_table_cell_strict_cross_product_witness :
    0 < ([⟨[1, 2, 3]⟩] : List Die).length
    ∧ 0 < (([⟨[1, 2, 3]⟩] : List Die).getD 0 default).faces.length
        * (([⟨[1, 2, 3]⟩] : List Die).getD 0 default).faces.length
    ∧ (((HelpTableGenerator.generate_table_probs [⟨[1, 2, 3]⟩]).getD 0 []).getD 0 0
        = (ProbabilityCalculator.count_wins (([⟨[1, 2, 3]⟩] : List Die).getD 0 default)
              (([⟨[1, 2, 3]⟩] : List Die).getD 0 default) : Rat)
          / (((([⟨[1, 2, 3]⟩] : List Die).getD 0 default).faces.length
              * (([⟨[1, 2, 3]⟩] : List Die).getD 0 default).faces.length : Nat) : Rat)
      ∧ (∀ (user_die pc_die : Die) (sameDie : Bool),
          HelpTableGenerator.cellProb user_die pc_die sameDie
            = ProbabilityCalculator.calculate_win_probability user_die pc_die)
      ∧ ProbabilityCalculator.calculate_win_probability ⟨[1, 2, 3]⟩ ⟨[1, 2, 3]⟩ = 1 / 3
      ∧ ProbabilityCalculator.calculate_win_probability ⟨[1, 2, 3]⟩ ⟨[1, 2, 3]⟩ ≠ 1 / 2) :=
  ⟨by decide, by decide,
    C4_table_cell_strict_cross_product [⟨[1, 2, 3]⟩] 0 0 (by decide) (by decide) (by decide)⟩

end DiceGame
